import Mathlib

/-!
# ClipCommand transform-pipeline engine: a shallow embedding

This file embeds the core of `src/clipcommand.py` — the plugin loader
(`load_transform`), the registry scanner (`scan_transforms`), the chain
resolver (`ClipCommandWindow._load_chain`, `_get_all_chains_with_status`),
the pipeline executor (`ClipCommandWindow._run_chain`) and the clipboard
change detector (`ClipboardWorker`) — and proves or refutes the frozen
claims about them.

Python values that flow through the engine are modelled by `PyVal`;
a module's top-level namespace by an association list; files and the
transforms folder by explicit records carrying the outcome of executing
their top-level code (executing arbitrary plugin code is outside the
embedding, so a file carries its result).

Python string operations are modelled over the character list of a
`String` (a Python `str` is a sequence of code points, which is exactly
`String.data`), so that every definition evaluates inside the kernel.
-/

/-! ## Python string primitives -/

/-- Whitespace for Python `str.strip()`. -/
def is_py_space (c : Char) : Bool := c.isWhitespace

/-- `strip()` on a character list: drop whitespace from both ends. -/
def trim_chars (cs : List Char) : List Char :=
  ((cs.dropWhile is_py_space).reverse.dropWhile is_py_space).reverse

/-- Python `s.strip()`. -/
def str_trim (s : String) : String := ⟨trim_chars s.data⟩

/-- Python `s[:n]` (slicing counts code points). -/
def str_take (s : String) (n : Nat) : String := ⟨s.data.take n⟩

/-- Python `len(s)` (code points). -/
def str_len (s : String) : Nat := s.data.length

/-- `s.replace("\n", "↵")` — the one `replace` the engine performs; a
single-character pattern and replacement, so it is a character map. -/
def visible_newlines (s : String) : String :=
  ⟨s.data.map (fun c => if c = '\n' then '↵' else c)⟩

/-- Python `s.split(sep)` for a one-character separator. -/
def split_char (sep : Char) (s : String) : List String :=
  (s.data.splitOn sep).map (fun cs => (⟨cs⟩ : String))

/-- Python `sep.join(parts)`. -/
def str_join (sep : String) : List String → String
  | [] => ""
  | [x] => x
  | x :: xs => x ++ sep ++ str_join sep xs

/-- Python `s.startswith("_")`. -/
def starts_underscore (s : String) : Bool :=
  match s.data with
  | '_' :: _ => true
  | _ => false

/-! ## Python values -/

/-- A Python value as the engine observes it: strings, the two numeric
types produced by override coercion (`int` and `float`, the latter modelled
by `ℚ` — every literal the configuration format produces is decimal),
`None`, and callables `(text) -> value` that may raise (modelled by
`Except`, the error being `str(exc)`). -/
inductive PyVal where
  | vstr (s : String)
  | vint (n : Int)
  | vfloat (q : ℚ)
  | vnone
  | vfunc (f : String → Except String PyVal)

/-- Python type name, as it appears in a `TypeError` message. -/
def py_type_name : PyVal → String
  | .vstr _ => "str"
  | .vint _ => "int"
  | .vfloat _ => "float"
  | .vnone => "NoneType"
  | .vfunc _ => "function"

/-- `str(v)`: identity on strings, decimal form for `int` (Python's and
Lean's decimal forms of an integer agree); the reprs of floats, `None`
and functions are simplified (no claim inspects them). -/
def pyStr : PyVal → String
  | .vstr s => s
  | .vint n => toString n
  | .vfloat q => toString q
  | .vnone => "None"
  | .vfunc _ => "<function transform>"

/-- Calling a value: a function runs (and may raise); calling anything
else raises `TypeError: '<type>' object is not callable`. -/
def pyCall (v : PyVal) (arg : String) : Except String PyVal :=
  match v with
  | .vfunc f => f arg
  | v => .error ("'" ++ py_type_name v ++ "' object is not callable")

/-- Accumulates a decimal digit run; `none` on a non-digit. -/
def digits_val : List Char → Nat → Option Nat
  | [], acc => some acc
  | c :: cs, acc => if c.isDigit then digits_val cs (acc * 10 + (c.toNat - 48)) else none

/-- A non-empty run of decimal digits, as a number (`"007"` parses to 7). -/
def parse_digits (cs : List Char) : Option Nat :=
  match cs with
  | [] => none
  | _ => digits_val cs 0

/-- Python `int(s)` on the strings the configuration format produces:
optional surrounding whitespace, optional sign, decimal digits; anything
else raises `ValueError` (`none`). `int("7.5")` is a `ValueError`. -/
def py_int (s : String) : Option Int :=
  match (str_trim s).data with
  | '+' :: rest => (parse_digits rest).map (fun n => (n : Int))
  | '-' :: rest => (parse_digits rest).map (fun n => -(n : Int))
  | cs => (parse_digits cs).map (fun n => (n : Int))

/-- The digit part of Python `float(s)`: `d`, `d.d`, `d.` or `.d` forms.
Exponents, `inf` and `nan` are not modelled (no configuration value in the
claims uses them). The value is exact (`ℚ`); every claim's literal is
exactly representable as a binary float, so exactness loses nothing. -/
def py_float_core (cs : List Char) : Option ℚ :=
  match cs.splitOn '.' with
  | [ip] => (parse_digits ip).map (fun n => (n : ℚ))
  | [ip, fp] =>
    if ip.isEmpty && fp.isEmpty then none
    else
      let ipv : Option Nat := if ip.isEmpty then some 0 else parse_digits ip
      let fpv : Option Nat := if fp.isEmpty then some 0 else parse_digits fp
      match ipv, fpv with
      | some i, some f => some ((i : ℚ) + (f : ℚ) / ((10 : ℚ) ^ fp.length))
      | _, _ => none
  | _ => none

/-- Python `float(s)`: optional whitespace and sign around the digit part. -/
def py_float (s : String) : Option ℚ :=
  match (str_trim s).data with
  | '+' :: rest => py_float_core rest
  | '-' :: rest => (py_float_core rest).map (fun q => -q)
  | cs => py_float_core cs

/-! ## Plugin loader -/

/-- The override-coercion loop of `load_transform` (clipcommand.py lines
253-261): `for cast in (int, float): try: value = cast(value); break` —
try `int`, then `float`, else keep the string. -/
def coerce_override (value : String) : PyVal :=
  match py_int value with
  | some n => .vint n
  | none =>
    match py_float value with
    | some q => .vfloat q
    | none => .vstr value

/-- `getattr(module, key)` over the namespace modelled as an association
list (first binding wins; as in a dict there is at most one). -/
def getattr_ns (attrs : List (String × PyVal)) (key : String) : Option PyVal :=
  (attrs.find? (fun p => p.1 == key)).map (fun p => p.2)

/-- `setattr(module, key, v)`: replace the binding or append a new one. -/
def setattr_ns (attrs : List (String × PyVal)) (key : String) (v : PyVal) :
    List (String × PyVal) :=
  match attrs with
  | [] => [(key, v)]
  | (k, w) :: rest =>
    if k == key then (key, v) :: rest else (k, w) :: setattr_ns rest key v

/-- The override-binding loop of `load_transform` (lines 253-261):
each key/value pair is coerced and bound onto the module's namespace. -/
def apply_overrides (attrs : List (String × PyVal)) (overrides : List (String × String)) :
    List (String × PyVal) :=
  overrides.foldl (fun a kv => setattr_ns a kv.1 (coerce_override kv.2)) attrs

/-- A loaded Python module: its top-level namespace, `module.__doc__`, and
the doc string of the `transform` the plugin itself defined (read only for
the description fallback). -/
structure PyModule where
  attrs : List (String × PyVal)
  doc : Option String
  transform_doc : Option String

/-- A plugin file on disk, with the outcome of executing its top-level
code: `path` is already resolved (`Path(...).resolve()` is modelled as the
identity on the stored path), `file_exists` is `path.exists()`, and
`exec_result` is the module — or `str(exc)` when the top-level code raises
(e.g. a syntax error). -/
structure ScriptFile where
  path : String
  file_exists : Bool
  exec_result : Except String PyModule

/-- The exceptions `load_transform` raises, with `str(exc)` for each:
`FileNotFoundError`, the `AttributeError` for a missing `transform`, and
any exception escaping the module's top-level code. -/
inductive LoadError where
  | not_found (path : String)
  | invalid_plugin
  | exec_failed (msg : String)
deriving DecidableEq

def LoadError.message : LoadError → String
  | .not_found p => "Script not found: " ++ p
  | .invalid_plugin => "Script must define a 'transform(text) -> str' function"
  | .exec_failed m => m

/-- Description resolution of `load_transform` (lines 262-266):
`(module.__doc__ or "").strip() or (module.transform.__doc__ or "").strip()
or "No description."`. -/
def resolve_description (m : PyModule) : String :=
  let d1 := str_trim (m.doc.getD "")
  if d1 ≠ "" then d1
  else
    let d2 := str_trim (m.transform_doc.getD "")
    if d2 ≠ "" then d2 else "No description."

/-- The short description (lines 267-269): the first line with non-blank
content, stripped; the whole description when every line is blank. -/
def first_nonblank_line (description : String) : String :=
  match (split_char '\n' description).find? (fun ln => str_trim ln != "") with
  | some ln => str_trim ln
  | none => description

/-- `load_transform(script_path, overrides)` (lines 244-270): missing file
raises `FileNotFoundError`; the module's top-level code runs (its
exception propagates); `hasattr(module, "transform")` is checked — note:
attribute presence only, callability is never checked; then each override
is coerced and bound via `setattr`, which can rebind `transform` itself;
finally `module.transform` — the possibly-overridden binding — is returned
together with the resolved path and the short description. `setattr` never
removes a binding, so the attribute read after the overrides is written
with the original binding as a (never-used) default. -/
def load_transform (f : ScriptFile) (overrides : List (String × String)) :
    Except LoadError (PyVal × String × String) :=
  if f.file_exists = false then .error (.not_found f.path)
  else
    match f.exec_result with
    | .error m => .error (.exec_failed m)
    | .ok m =>
      match getattr_ns m.attrs "transform" with
      | none => .error .invalid_plugin
      | some orig =>
        let attrs := apply_overrides m.attrs overrides
        .ok ((getattr_ns attrs "transform").getD orig, f.path,
          first_nonblank_line (resolve_description m))

/-! ## Configuration, registry scanner and chain resolver -/

/-- A `[chain:<name>]` section of `transforms.ini` as `configparser`
hands it to `get_chains`: the name after the prefix, the `description`
value (empty-string fallback) and the raw `steps` value. -/
structure ChainSection where
  name : String
  description : String
  steps_raw : String

/-- The parsed configuration as the engine reads it: the per-stem
`[transform:<stem>]` override sections and the `[chain:<name>]` sections,
in file order. `configparser` itself (INI syntax) is outside the model. -/
structure IniConfig where
  overrides : List (String × List (String × String))
  chains : List ChainSection

/-- `get_transform_overrides(cfg, stem)` (lines 221-223): the section's
pairs, or empty when the section is absent. -/
def get_transform_overrides (cfg : IniConfig) (stem : String) : List (String × String) :=
  ((cfg.overrides.find? (fun p => p.1 == stem)).map (fun p => p.2)).getD []

/-- The `steps` value parser of `get_chains` (line 234): split on commas,
strip each entry, drop empties. -/
def parse_steps (raw : String) : List String :=
  ((split_char ',' raw).map str_trim).filter (fun s => s != "")

/-- Python `str.title()` after `replace("_", " ")`, as used for labels:
uppercase the first character of each space-separated word, lowercase the
rest. (Python's `title()` treats every non-letter as a word break; the
space-word form is faithful for the stems that occur here and no claim
inspects a label's exact text.) -/
def py_title (s : String) : String :=
  str_join " " ((split_char ' ' s).map (fun w =>
    match w.data.map Char.toLower with
    | [] => ("" : String)
    | c :: rest => ⟨c.toUpper :: rest⟩))

/-- `stem.replace("_", " ")` — a character-to-character replace. -/
def underscores_to_spaces (s : String) : String :=
  ⟨s.data.map (fun c => if c = '_' then ' ' else c)⟩

/-- One registry entry, the dict `scan_transforms` and `get_chains` build:
`fn` is `None` for broken scripts and absent (modelled `none`) for chains;
`steps` is empty for scripts. -/
structure Entry where
  name : String
  label : String
  path : String
  description : String
  fn : Option PyVal
  is_chain : Bool
  steps : List String

/-- `get_chains(cfg)` (lines 226-239): one `Chain`-kind entry per
`[chain:<name>]` section, in configuration order, with label
`⛓ <title>`, the declared description and the parsed steps. A chain dict
carries no `path` and no `fn` key; the model stores `""` and `none`. -/
def get_chains (cfg : IniConfig) : List Entry :=
  cfg.chains.map (fun c =>
    ⟨c.name, "⛓ " ++ py_title (underscores_to_spaces c.name), "", c.description,
      none, true, parse_steps c.steps_raw⟩)

/-- One `*.py` direct child of the transforms folder: its filename stem
and the file itself. -/
structure ScanFile where
  stem : String
  file : ScriptFile

/-- The transforms folder as `scan_transforms` sees it: whether
`Path(folder).is_dir()` holds (false also when the folder does not exist),
and its `*.py` direct children in sorted filename order (the order
`sorted(p.glob("*.py"))` yields). -/
structure TransformsFolder where
  is_dir : Bool
  py_files : List ScanFile

/-- `scan_transforms(folder, cfg)` (lines 273-300): empty registry when
the folder is not a directory; otherwise each eligible file (name not
starting with an underscore) becomes a `Script` entry on successful load,
or a `Broken` entry — label `⚠ <stem>`, description `Load error: <exc>`,
`fn = None` — on any load failure; the chain entries are appended after. -/
def scan_transforms (folder : TransformsFolder) (cfg : IniConfig) : List Entry :=
  if folder.is_dir = false then []
  else
    ((folder.py_files.filter (fun f => !(starts_underscore f.stem))).map (fun f =>
      match load_transform f.file (get_transform_overrides cfg f.stem) with
      | .ok (fn, path, desc) =>
        ⟨f.stem, py_title (underscores_to_spaces f.stem), path, desc, some fn, false, []⟩
      | .error e =>
        ⟨f.stem, "⚠ " ++ f.stem, f.file.path, "Load error: " ++ e.message,
          none, false, []⟩))
    ++ get_chains cfg

/-- The resolution loop of `ClipCommandWindow._load_chain` (lines
658-674): for each declared step name, the first non-chain registry entry
with that exact name contributes its label, in declaration order; a name
with no match is logged as `Chain step '<name>' not found` — the second
component collects those names, in order. -/
def load_chain_labels (registry : List Entry) (steps : List String) :
    List String × List String :=
  match steps with
  | [] => ([], [])
  | n :: rest =>
    let r := load_chain_labels registry rest
    match registry.find? (fun t => t.name == n && !t.is_chain) with
    | some t => (t.label :: r.1, r.2)
    | none => (r.1, n :: r.2)

/-- The `valid_script_names` set of `_get_all_chains_with_status` (lines
678-681): names of non-chain entries whose `fn` is not `None`. -/
def valid_script_names (registry : List Entry) : List String :=
  (registry.filter (fun t => !t.is_chain && t.fn.isSome)).map (fun t => t.name)

/-- The per-chain missing list of `_get_all_chains_with_status` (line
686): declared steps whose name is not a valid script name. -/
def chain_missing (registry : List Entry) (t : Entry) : List String :=
  t.steps.filter (fun s => !((valid_script_names registry).contains s))

/-- `_get_all_chains_with_status` (lines 676-688): every chain entry
paired with its missing steps. -/
def get_all_chains_with_status (registry : List Entry) : List (Entry × List String) :=
  (registry.filter (fun t => t.is_chain)).map (fun t => (t, chain_missing registry t))

/-! ## Clipboard change detector -/

/-- The mutable state of `ClipboardWorker` (lines 305-342): the loop
flag, the `Active`/`Suspended` flag and the last-seen baseline. -/
structure ClipboardWorker where
  running : Bool
  active : Bool
  last : String

/-- A freshly constructed worker (lines 309-314). -/
def ClipboardWorker.init : ClipboardWorker := ⟨true, true, ""⟩

/-- `ClipboardWorker.reseed` (lines 316-320): record the current clipboard
content as the baseline, emitting nothing. (The `try/except: pass` around
the read is modelled by taking the successfully read content as input.) -/
def ClipboardWorker.reseed (w : ClipboardWorker) (current : String) : ClipboardWorker :=
  { w with last := current }

/-- `ClipboardWorker.set_active` (lines 322-323). -/
def ClipboardWorker.set_active (w : ClipboardWorker) (a : Bool) : ClipboardWorker :=
  { w with active := a }

/-- `ClipboardWorker.update_last` (lines 341-342), the write-back reseed
used by `_run_chain` after copying to the clipboard. -/
def ClipboardWorker.update_last (w : ClipboardWorker) (text : String) : ClipboardWorker :=
  { w with last := text }

/-- One iteration of the polling loop body (lines 331-338), given the
content the poll reads: only when active is the clipboard read at all;
non-empty content different from the baseline updates the baseline and
emits one `clip_changed` trigger. The emitted triggers are returned. -/
def poll_once (w : ClipboardWorker) (current : String) : ClipboardWorker × List String :=
  if w.active then
    if current ≠ "" ∧ current ≠ w.last then ({ w with last := current }, [current])
    else (w, [])
  else (w, [])

/-- The polling loop over a finite list of observed contents, one per
iteration, collecting all emitted triggers in order. -/
def poll_many (w : ClipboardWorker) : List String → ClipboardWorker × List String
  | [] => (w, [])
  | c :: cs =>
    let r1 := poll_once w c
    let r2 := poll_many r1.1 cs
    (r2.1, r1.2 ++ r2.2)

/-- `ClipboardWorker.run` (lines 328-339) over a finite observation
sequence: the mandatory initial `reseed` (line 329), then the polls. -/
def worker_run (w : ClipboardWorker) (initial : String) (polls : List String) :
    ClipboardWorker × List String :=
  poll_many (w.reseed initial) polls

/-- The resume path of `ClipCommandWindow._toggle` (lines 1087-1097):
`set_active(True)` followed by `_reseed_clipboard()`, which reseeds the
worker from the current clipboard content. -/
def resume_and_reseed (w : ClipboardWorker) (current : String) : ClipboardWorker :=
  (w.set_active true).reseed current

/-! ## Pipeline executor -/

/-- One trace event, as `_log(message, tag, transform_name)` receives it
(lines 873-875). -/
structure LogEvent where
  msg : String
  tag : String
  transform_name : String
deriving DecidableEq, Repr

/-- One resolved pipeline step as `_run_chain` consumes it: the entry's
`name` and its `fn` (`None` for an entry that degraded to broken). -/
structure Step where
  name : String
  fn : Option PyVal

/-- Which branch `_run_chain` returned from, with what it observably
carries: the empty-steps early return; the null-callable return (the step
name — a position appears only in the logged message); the exception
return (step name and `str(exc)`); or completion with the final string. -/
inductive RunResult where
  | emptyPipeline
  | stepUnavailable (name : String)
  | stepRaised (name : String) (excMsg : String)
  | completed (final : String)

/-- What `_run_chain` wrote to which sink: `pyperclip.copy` on the normal
path, the preview pane in dry-run mode, or nothing on any failure path. -/
inductive SinkWrite where
  | clipboard (text : String)
  | preview (text : String)

/-- The full observable outcome of one `_run_chain` call. -/
structure RunOutcome where
  result : RunResult
  trace : List LogEvent
  write : Option SinkWrite

/-- The 80-character preview with newlines rendered visibly (lines 992,
1001): `current[:80].replace("\n", "↵")`. -/
def preview80 (s : String) : String := visible_newlines (str_take s 80)

/-- Python `repr` of a string as interpolated by `{x!r}` — simplified to
single quotes without escaping (no claim inspects escaped content). -/
def py_repr (s : String) : String := "'" ++ s ++ "'"

/-- `traceback.format_exc()` — modelled as a fixed header plus the
exception text (no claim inspects the traceback body). -/
def format_exc (msg : String) : String :=
  "Traceback (most recent call last): " ++ msg

/-- The step loop of `_run_chain` (lines 984-1013), at loop index `i` with
accumulator `current`: a step whose `fn` is `None` logs
`✗ Step <i+1> [<name>] has no function (load error)` and aborts; otherwise
the `[i+1/total]` marker (chains only) and the `In:` preview are logged,
the callable is invoked — an exception logs the error and the traceback
and aborts; a return value is coerced to `str` when it is not one, the
`Out:` preview (and, for long or multi-line output, the full output) is
logged, and the loop continues on the coerced output. -/
def run_steps (is_chain : Bool) (total : Nat) :
    Nat → List Step → String → RunResult × List LogEvent
  | _, [], current => (.completed current, [])
  | i, st :: rest, current =>
    match st.fn with
    | none =>
      (.stepUnavailable st.name,
        [⟨"  ✗ Step " ++ toString (i + 1) ++ " [" ++ st.name ++
          "] has no function (load error)", "err", ""⟩])
    | some fnVal =>
      let chainLog : List LogEvent :=
        if is_chain then
          [⟨"  [" ++ toString (i + 1) ++ "/" ++ toString total ++ "] " ++ st.name,
            "chain", ""⟩]
        else []
      let inLog : LogEvent :=
        ⟨"   In:  " ++ py_repr (preview80 current) ++
          (if 80 < str_len current then "…" else ""), "preview", ""⟩
      match pyCall fnVal current with
      | .error exc =>
        (.stepRaised st.name exc,
          chainLog ++ [inLog,
            ⟨"  ✗ Error in [" ++ st.name ++ "]: " ++ exc, "err", st.name⟩,
            ⟨format_exc exc, "err", st.name⟩])
      | .ok res =>
        let resultStr := pyStr res
        let outLog : LogEvent :=
          ⟨"   Out: " ++ py_repr (preview80 resultStr) ++
            (if 80 < str_len resultStr then "…" else ""), "ok", ""⟩
        let fullLog : List LogEvent :=
          if decide (80 < str_len resultStr) || resultStr.data.contains '\n' then
            [⟨"   Full output: " ++ resultStr, "info", st.name⟩]
          else []
        let r := run_steps is_chain total (i + 1) rest resultStr
        (r.1, chainLog ++ [inLog, outLog] ++ fullLog ++ r.2)

/-- The `chain_label` of `_run_chain` (line 977). -/
def chain_label (steps : List Step) : String :=
  str_join " → " (steps.map Step.name)

/-- The start-marker event of `_run_chain` (lines 979-982); the empty
case never reaches it. -/
def front_event (steps : List Step) (source : String) : LogEvent :=
  match steps with
  | [] => ⟨"", "", ""⟩
  | s0 :: rest =>
    if decide (1 < (s0 :: rest).length) then
      ⟨"▶ Chain [" ++ chain_label (s0 :: rest) ++ "] via " ++ source, "chain",
        chain_label (s0 :: rest)⟩
    else
      ⟨"▶ [" ++ s0.name ++ "] via " ++ source, "info", s0.name⟩

/-- The tail of `_run_chain` (lines 1015-1028): on completion, dry-run
mode logs the dry-run marker and writes the preview pane; otherwise the
final string is copied to the clipboard and the success marker logged.
Any failure result leaves every sink untouched. -/
def assemble (dry_run : Bool) (front : LogEvent) :
    RunResult × List LogEvent → RunOutcome
  | (.completed final, tr) =>
    if dry_run then
      ⟨.completed final,
        front :: tr ++ [⟨"  🔍 Dry run — " ++ toString (str_len final) ++
          " chars sent to preview pane", "warn", ""⟩],
        some (.preview final)⟩
    else
      ⟨.completed final,
        front :: tr ++ [⟨"  ✓ " ++ toString (str_len final) ++
          " chars written to clipboard", "ok", ""⟩],
        some (.clipboard final)⟩
  | (res, tr) => ⟨res, front :: tr, none⟩

/-- `ClipCommandWindow._run_chain(clip_text, source)` (lines 970-1031)
over an explicit step list (in the code the list comes from
`_get_active_steps()`): the empty list logs the warning and returns
without touching any sink; otherwise the start marker is logged, the step
loop runs, and the tail writes the final string to the selected sink on
completion only. -/
def run_chain (dry_run : Bool) (steps : List Step) (clip_text source : String) :
    RunOutcome :=
  match steps with
  | [] =>
    ⟨.emptyPipeline,
      [⟨"No transforms active — add steps to the chain", "warn", ""⟩], none⟩
  | s0 :: rest =>
    assemble dry_run (front_event (s0 :: rest) source)
      (run_steps (decide (1 < (s0 :: rest).length)) (s0 :: rest).length 0
        (s0 :: rest) clip_text)

/-- Modelled from the spec (§4.4, the claim's own words, for the
refinement comparison of C1): the left fold of the steps' transform
functions over the input text, each step's output — coerced to its string
representation when it is not a string — becoming the next step's input;
an exception anywhere aborts the fold. Compared against `run_chain`. -/
def spec_left_fold : List (String → Except String PyVal) → String → Except String String
  | [], acc => .ok acc
  | f :: fs, acc =>
    match f acc with
    | .error e => .error e
    | .ok v => spec_left_fold fs (pyStr v)

/-- The success trajectory of the step loop: `some final` when every
step's callable exists, runs without raising, and the coerced outputs
fold to `final`; `none` as soon as a step is unavailable, non-callable or
raises. Used to state which prefix of a pipeline succeeds. -/
def steps_fold : List Step → String → Option String
  | [], s => some s
  | st :: rest, s =>
    match st.fn with
    | some v =>
      match pyCall v s with
      | .ok r => steps_fold rest (pyStr r)
      | .error _ => none
    | none => none

/-- A step that fails on input `cur`: its callable is `None`, or invoking
its value raises (a non-callable value raising `TypeError` included). -/
def StepFails (st : Step) (cur : String) : Prop :=
  st.fn = none ∨ ∃ v m, st.fn = some v ∧ pyCall v cur = .error m

/-! ## Claims -/

/-- C3: override coercion tries integer first, then floating point, then
leaves the value as a string — "7" coerces to the integer 7, "7.5" to the
float 7.5, "seven" stays the string "seven" ("007" to the integer 7 and
"7.0" to the float 7.0 witness the order sensitivity) — and the coerced
value is bound onto the loaded module's namespace. -/
theorem C3_override_coercion :
    coerce_override "7" = .vint 7 ∧
    coerce_override "7.5" = .vfloat (7.5 : ℚ) ∧
    coerce_override "seven" = .vstr "seven" ∧
    coerce_override "007" = .vint 7 ∧
    coerce_override "7.0" = .vfloat (7 : ℚ) ∧
    getattr_ns (apply_overrides [("bookmark", .vstr "bk1")] [("bookmark", "7")])
      "bookmark" = some (.vint 7) := by
  refine ⟨rfl, ?_, rfl, rfl, ?_, rfl⟩
  · have h : coerce_override "7.5" = .vfloat (((7 : ℕ) : ℚ) + ((5 : ℕ) : ℚ) / 10 ^ 1) := rfl
    rw [h]
    congr 1
    norm_num
  · have h : coerce_override "7.0" = .vfloat (((7 : ℕ) : ℚ) + ((0 : ℕ) : ℚ) / 10 ^ 1) := rfl
    rw [h]
    congr 1
    norm_num

/-- C7: the executor invoked with an empty step list returns the distinct
empty-pipeline condition, writes nothing to any sink, and emits exactly
the one pipeline-level failure marker. -/
theorem C7_empty_pipeline (dry_run : Bool) (input source : String) :
    run_chain dry_run [] input source =
      ⟨.emptyPipeline,
        [⟨"No transforms active — add steps to the chain", "warn", ""⟩], none⟩ := rfl

/-- C5 counterexample: a suspended worker polling new content "new" over
baseline "old" leaves the baseline at "old" — the claim that each poll
while suspended updates the baseline with the observed content fails on
the code, whose poll body is entirely guarded by the active flag. -/
theorem C5_counterexample_suspended_poll :
    (poll_once ⟨true, false, "old"⟩ "new").1.last = "old" ∧ "old" ≠ "new" :=
  ⟨rfl, by decide⟩

/-- While inactive, the polling loop body does nothing at all: the state
(baseline included) is unchanged and nothing is emitted. -/
theorem poll_many_inactive (polls : List String) :
    ∀ (w : ClipboardWorker), w.active = false → poll_many w polls = (w, []) := by
  induction polls with
  | nil => intro w _; rfl
  | cons c cs ih =>
    intro w h
    simp [poll_many, poll_once, h, ih w h]

/-- C5 as the code has it: while the detector is suspended, polls do not
read the source and leave the baseline untouched; immediate re-triggering
on resume is instead prevented by the resume path, which reseeds the
baseline from the current content before the next poll, so a poll reading
that same content does not trigger. -/
theorem C5_suspended_freezes_baseline (w : ClipboardWorker) (polls : List String)
    (current : String) (h : w.active = false) :
    (poll_many w polls).1.last = w.last ∧
    (poll_once (resume_and_reseed w current) current).2 = [] := by
  constructor
  · rw [poll_many_inactive polls w h]
  · simp [poll_once, resume_and_reseed, ClipboardWorker.set_active, ClipboardWorker.reseed]

theorem C5_witness :
    (poll_many ⟨true, false, "old"⟩ ["a", "b"]).1.last = "old" ∧
    (poll_once (resume_and_reseed ⟨true, false, "old"⟩ "z") "z").2 = [] :=
  C5_suspended_freezes_baseline ⟨true, false, "old"⟩ ["a", "b"] "z" rfl

/-- C4: after the initial reseed (reading `r`, emitting nothing), a source
yielding "X", "X", "Y" across three polls triggers exactly twice — and in
general a poll reading content equal to the baseline never triggers, an
active poll reading non-empty different content triggers exactly once, and
a suspended worker triggers zero times however many distinct values its
polls would observe. -/
theorem C4_change_detection (r : String) (h : r ≠ "X") :
    (worker_run ClipboardWorker.init r ["X", "X", "Y"]).2 = ["X", "Y"] ∧
    (∀ (w : ClipboardWorker) (c : String), c = w.last → (poll_once w c).2 = []) ∧
    (∀ (w : ClipboardWorker) (c : String),
      w.active = true → c ≠ "" → c ≠ w.last → (poll_once w c).2 = [c]) ∧
    (∀ (w : ClipboardWorker) (polls : List String),
      w.active = false → (poll_many w polls).2 = []) := by
  refine ⟨?_, ?_, ?_, ?_⟩
  · have h1 : ("X" : String) ≠ "" := by decide
    have h2 : ("X" : String) ≠ r := Ne.symm h
    simp [worker_run, ClipboardWorker.init, ClipboardWorker.reseed, poll_many,
      poll_once, h1, h2]
  · intro w c hc
    subst hc
    cases hw : w.active <;> simp [poll_once, hw]
  · intro w c hact hne hlast
    simp [poll_once, hact, hne, hlast]
  · intro w polls hw
    rw [poll_many_inactive polls w hw]

theorem C4_witness :
    (worker_run ClipboardWorker.init "" ["X", "X", "Y"]).2 = ["X", "Y"] ∧
    (∀ (w : ClipboardWorker) (c : String), c = w.last → (poll_once w c).2 = []) ∧
    (∀ (w : ClipboardWorker) (c : String),
      w.active = true → c ≠ "" → c ≠ w.last → (poll_once w c).2 = [c]) ∧
    (∀ (w : ClipboardWorker) (polls : List String),
      w.active = false → (poll_many w polls).2 = []) :=
  C4_change_detection "" (by decide)

/-- A module binding the name `transform` to a non-callable value
(`transform = 5` at top level), with a module docstring. -/
def noncallable_module : PyModule := ⟨[("transform", .vint 5)], some "An int transform.", none⟩

def noncallable_file : ScriptFile := ⟨"/plugins/intplug.py", true, .ok noncallable_module⟩

/-- C8 counterexample: a loaded unit whose `transform` name exists but is
bound to the non-callable value 5 loads successfully (the loader checks
`hasattr` only) — the claim that the loader fails with `InvalidPlugin` on
every unit lacking a transform *callable* is false at this input. -/
theorem C8_counterexample_noncallable :
    load_transform noncallable_file [] =
      .ok (.vint 5, "/plugins/intplug.py", "An int transform.") := rfl

/-- C8 as the code has it: the loader fails with the invalid-plugin error
exactly when the loaded unit has no attribute named `transform` at all
(the file existing and its top-level code succeeding); a non-callable
value bound to the name passes the check and is returned as the entry's
function. -/
theorem C8_invalid_iff_attribute_missing (f : ScriptFile) (ov : List (String × String)) :
    load_transform f ov = .error .invalid_plugin ↔
      f.file_exists = true ∧
        ∃ m, f.exec_result = .ok m ∧ getattr_ns m.attrs "transform" = none := by
  unfold load_transform
  cases hfe : f.file_exists with
  | false => simp [hfe]
  | true =>
    cases hex : f.exec_result with
    | error m => simp [hfe, hex]
    | ok m =>
      cases hg : getattr_ns m.attrs "transform" with
      | none => simp [hfe, hex, hg]
      | some orig => simp [hfe, hex, hg]

/-- A plugin whose `transform` appends an exclamation mark. -/
def excl_fun : String → Except String PyVal := fun s => .ok (.vstr (s ++ "!"))

def sample_module : PyModule := ⟨[("transform", .vfunc excl_fun)], some "Sample transform.", none⟩

def sample_file : ScriptFile := ⟨"/plugins/sample.py", true, .ok sample_module⟩

/-- C10: an override entry keyed `transform` is bound after the
presence check, replacing the validated callable with the coerced
configuration value — the loader still returns success carrying the
non-callable integer 7, and a pipeline step holding that value fails only
at invocation time, as a step-raised `TypeError`, never as an
invalid-plugin load error and never as a step-unavailable result. -/
theorem C10_override_shadows_transform :
    load_transform sample_file [("transform", "7")] =
      .ok (.vint 7, "/plugins/sample.py", "Sample transform.") ∧
    (∀ (dry_run : Bool) (input source : String),
      (run_chain dry_run [⟨"sample", some (.vint 7)⟩] input source).result =
        .stepRaised "sample" "'int' object is not callable") := by
  refine ⟨rfl, ?_⟩
  intro dry_run input source
  rfl

/-- C9: scanning a folder that does not exist or is not a directory
returns the empty registry, and every eligible file whose load fails —
with any error the loader raises — still appears in the registry as a
broken entry carrying `Load error: <message>` and a null callable. -/
theorem C9_scan_resilient :
    (∀ (folder : TransformsFolder) (cfg : IniConfig),
      folder.is_dir = false → scan_transforms folder cfg = []) ∧
    (∀ (folder : TransformsFolder) (cfg : IniConfig) (f : ScanFile) (e : LoadError),
      folder.is_dir = true → f ∈ folder.py_files → starts_underscore f.stem = false →
      load_transform f.file (get_transform_overrides cfg f.stem) = .error e →
      (⟨f.stem, "⚠ " ++ f.stem, f.file.path, "Load error: " ++ e.message,
        none, false, []⟩ : Entry) ∈ scan_transforms folder cfg) := by
  constructor
  · intro folder cfg h
    simp [scan_transforms, h]
  · intro folder cfg f e hdir hmem hund hload
    unfold scan_transforms
    simp only [hdir]
    refine List.mem_append_left _ ?_
    refine List.mem_map.mpr ⟨f, List.mem_filter.mpr ⟨hmem, by simp [hund]⟩, ?_⟩
    simp [hload]

def broken_file : ScriptFile := ⟨"/t/broken.py", true, .error "invalid syntax (broken.py, line 3)"⟩

def broken_scan : ScanFile := ⟨"broken", broken_file⟩

def folder_with_broken : TransformsFolder := ⟨true, [broken_scan]⟩

def empty_cfg : IniConfig := ⟨[], []⟩

theorem C9_witness :
    scan_transforms ⟨false, [broken_scan]⟩ empty_cfg = [] ∧
    (⟨"broken", "⚠ broken", "/t/broken.py",
      "Load error: invalid syntax (broken.py, line 3)", none, false, []⟩ : Entry) ∈
      scan_transforms folder_with_broken empty_cfg :=
  ⟨C9_scan_resilient.1 ⟨false, [broken_scan]⟩ empty_cfg rfl,
   C9_scan_resilient.2 folder_with_broken empty_cfg broken_scan
     (.exec_failed "invalid syntax (broken.py, line 3)") rfl
     (by simp [folder_with_broken]) rfl rfl⟩

def entry_a : Entry := ⟨"a", "A", "/t/a.py", "da", some (.vfunc excl_fun), false, []⟩

def entry_b : Entry := ⟨"b", "B", "/t/b.py", "db", some (.vfunc excl_fun), false, []⟩

def chain_ab : Entry := ⟨"clean", "⛓ Clean", "", "dc", none, true, ["a", "missing", "b"]⟩

def registry_ex : List Entry := [entry_a, entry_b, chain_ab]

/-- The resolution loop returns exactly the labels of the declared names
that match a non-chain entry, in declaration order, and collects exactly
the declared names with no match, in declaration order. -/
theorem load_chain_labels_spec (registry : List Entry) (steps : List String) :
    (load_chain_labels registry steps).1 =
      steps.filterMap (fun n =>
        (registry.find? (fun t => t.name == n && !t.is_chain)).map Entry.label) ∧
    (load_chain_labels registry steps).2 =
      steps.filter (fun n =>
        (registry.find? (fun t => t.name == n && !t.is_chain)).isNone) := by
  induction steps with
  | nil => exact ⟨rfl, rfl⟩
  | cons n rest ih =>
    cases hf : registry.find? (fun t => t.name == n && !t.is_chain) with
    | none => simp [load_chain_labels, hf, ih.1, ih.2]
    | some t => simp [load_chain_labels, hf, ih.1, ih.2]

/-- C6: chain resolution preserves declaration order and returns exactly
the declared names matching a non-chain entry; unmatched names are
accumulated into the missing list and excluded from the resolved list
(steps ["a", "missing", "b"] against scripts a and b resolve to [a, b]
with missing ["missing"]); and a name every matching non-chain entry of
which is broken (null callable) lands in the chain's missing list, so a
broken script is excluded from any chain's successful resolution. -/
theorem C6_chain_resolution :
    load_chain_labels registry_ex ["a", "missing", "b"] = (["A", "B"], ["missing"]) ∧
    get_all_chains_with_status registry_ex = [(chain_ab, ["missing"])] ∧
    (∀ (registry : List Entry) (steps : List String),
      (load_chain_labels registry steps).1 =
        steps.filterMap (fun n =>
          (registry.find? (fun t => t.name == n && !t.is_chain)).map Entry.label) ∧
      (load_chain_labels registry steps).2 =
        steps.filter (fun n =>
          (registry.find? (fun t => t.name == n && !t.is_chain)).isNone)) ∧
    (∀ (registry : List Entry) (c : Entry) (n : String),
      n ∈ c.steps →
      (∀ t ∈ registry, t.is_chain = false → t.name = n → t.fn = none) →
      n ∈ chain_missing registry c) := by
  refine ⟨rfl, rfl, load_chain_labels_spec, ?_⟩
  intro registry c n hn hall
  have hns : n ∉ valid_script_names registry := by
    intro hmem
    rcases List.mem_map.mp hmem with ⟨t, htf, htn⟩
    rcases List.mem_filter.mp htf with ⟨htr, hpred⟩
    have hpred2 : t.is_chain = false ∧ t.fn.isSome = true := by simpa using hpred
    have := hall t htr hpred2.1 htn
    have h2 := hpred2.2
    rw [this] at h2
    simp at h2
  exact List.mem_filter.mpr ⟨hn, by simpa using hns⟩

def broken_x : Entry := ⟨"x", "⚠ x", "/t/x.py", "Load error: boom", none, false, []⟩

def chain_with_x : Entry := ⟨"cx", "⛓ Cx", "", "", none, true, ["x"]⟩

def registry_with_broken : List Entry := [broken_x, chain_with_x]

theorem C6_witness : "x" ∈ chain_missing registry_with_broken chain_with_x :=
  C6_chain_resolution.2.2.2 registry_with_broken chain_with_x "x"
    (by simp [chain_with_x])
    (by
      intro t ht h1 h2
      simp only [registry_with_broken, List.mem_cons, List.not_mem_nil, or_false] at ht
      rcases ht with rfl | rfl
      · rfl
      · simp [chain_with_x] at h1)

/-- When every step is a callable whose applications all succeed (the
spec-side fold returns `ok`), the step loop completes with the fold's
final string. -/
theorem run_steps_ok (fs : List (String → Except String PyVal)) :
    ∀ (steps : List Step) (is_chain : Bool) (total i : Nat) (current final : String),
      steps.map Step.fn = fs.map (fun f => some (PyVal.vfunc f)) →
      spec_left_fold fs current = .ok final →
      (run_steps is_chain total i steps current).1 = .completed final := by
  induction fs with
  | nil =>
    intro steps is_chain total i current final hmap hfold
    have hsteps : steps = [] := by
      cases steps with
      | nil => rfl
      | cons a b => simp at hmap
    subst hsteps
    have hfin : current = final := by simpa [spec_left_fold] using hfold
    subst hfin
    rfl
  | cons f fs ih =>
    intro steps is_chain total i current final hmap hfold
    cases steps with
    | nil => simp at hmap
    | cons st rest =>
      simp only [List.map_cons, List.cons.injEq] at hmap
      obtain ⟨h1, h2⟩ := hmap
      cases hc : f current with
      | error e => simp [spec_left_fold, hc] at hfold
      | ok v =>
        have hfold2 : spec_left_fold fs (pyStr v) = .ok final := by
          simpa [spec_left_fold, hc] using hfold
        simp only [run_steps, h1, pyCall, hc]
        exact ih rest is_chain total (i + 1) (pyStr v) final h2 hfold2

/-- C1: for every non-empty step list whose callables are all functions
and none of which raises on its input, the executor returns a completed
result whose final string is the left fold of the steps' transform
functions over the input text, non-string returns coerced to their string
representation between steps (`spec_left_fold` states the claim's fold in
the spec's words). -/
theorem C1_run_is_left_fold (dry_run : Bool) (steps : List Step)
    (fs : List (String → Except String PyVal)) (input source final : String)
    (hne : steps ≠ [])
    (hmap : steps.map Step.fn = fs.map (fun f => some (PyVal.vfunc f)))
    (hfold : spec_left_fold fs input = .ok final) :
    (run_chain dry_run steps input source).result = .completed final := by
  cases steps with
  | nil => exact absurd rfl hne
  | cons s0 rest =>
    have hr := run_steps_ok fs (s0 :: rest) (decide (1 < (s0 :: rest).length))
      (s0 :: rest).length 0 input final hmap hfold
    rcases hrs : run_steps (decide (1 < (s0 :: rest).length)) (s0 :: rest).length 0
        (s0 :: rest) input with ⟨res, tr⟩
    rw [hrs] at hr
    simp only at hr
    subst hr
    simp only [run_chain]
    rw [hrs]
    cases dry_run <;> simp [assemble]

theorem C1_witness :
    (run_chain false [⟨"excl", some (.vfunc excl_fun)⟩] "hi" "clipboard change").result =
      .completed "hi!" :=
  C1_run_is_left_fold false [⟨"excl", some (.vfunc excl_fun)⟩] [excl_fun] "hi"
    "clipboard change" "hi!" (by simp) rfl rfl

/-- C2 counterexample: in a two-step pipeline failing at the second step —
zero-based position 1 — the emitted failure entry reads `Step 2` (the
one-based position); no entry names the zero-based position. The claim
that the failure names the step's zero-based position is false on the
code, which logs `i+1`. -/
theorem C2_counterexample_zero_based :
    (⟨"  ✗ Step 2 [b] has no function (load error)", "err", ""⟩ : LogEvent) ∈
      (run_chain false [⟨"a", some (.vfunc excl_fun)⟩, ⟨"b", none⟩] "t" "hotkey").trace ∧
    (⟨"  ✗ Step 1 [b] has no function (load error)", "err", ""⟩ : LogEvent) ∉
      (run_chain false [⟨"a", some (.vfunc excl_fun)⟩, ⟨"b", none⟩] "t" "hotkey").trace := by
  decide

/-- Once the first failing step is reached, the steps after it contribute
nothing: the loop's outcome over `pre ++ bad :: post` equals its outcome
over `pre ++ [bad]` — result and trace alike. -/
theorem run_steps_stops (pre : List Step) :
    ∀ (bad : Step) (post : List Step) (is_chain : Bool) (total i : Nat)
      (input cur : String),
      steps_fold pre input = some cur →
      StepFails bad cur →
      run_steps is_chain total i (pre ++ bad :: post) input =
        run_steps is_chain total i (pre ++ [bad]) input := by
  induction pre with
  | nil =>
    intro bad post is_chain total i input cur hfold hbad
    have hcur : input = cur := by simpa [steps_fold] using hfold
    subst hcur
    rcases hbad with hnone | ⟨v, m, hv, hcall⟩
    · simp [run_steps, hnone]
    · simp [run_steps, hv, hcall]
  | cons st pre ih =>
    intro bad post is_chain total i input cur hfold hbad
    cases hfn : st.fn with
    | none => simp [steps_fold, hfn] at hfold
    | some v =>
      cases hc : pyCall v input with
      | error e => simp [steps_fold, hfn, hc] at hfold
      | ok r =>
        have hfold2 : steps_fold pre (pyStr r) = some cur := by
          simpa [steps_fold, hfn, hc] using hfold
        simp only [List.cons_append, run_steps, hfn, hc, List.append_eq]
        rw [ih bad post is_chain total (i + 1) (pyStr r) cur hfold2 hbad]

/-- The loop's result at the first failing step is the unavailable-step
result for a null callable, and a step-raised result otherwise — in both
cases naming that step. -/
theorem run_steps_fail_kind (pre : List Step) :
    ∀ (bad : Step) (is_chain : Bool) (total i : Nat) (input cur : String),
      steps_fold pre input = some cur →
      StepFails bad cur →
      (run_steps is_chain total i (pre ++ [bad]) input).1 = .stepUnavailable bad.name ∨
        ∃ m, (run_steps is_chain total i (pre ++ [bad]) input).1 = .stepRaised bad.name m := by
  induction pre with
  | nil =>
    intro bad is_chain total i input cur hfold hbad
    have hcur : input = cur := by simpa [steps_fold] using hfold
    subst hcur
    rcases hbad with hnone | ⟨v, m, hv, hcall⟩
    · left
      simp [run_steps, hnone]
    · right
      exact ⟨m, by simp [run_steps, hv, hcall]⟩
  | cons st pre ih =>
    intro bad is_chain total i input cur hfold hbad
    cases hfn : st.fn with
    | none => simp [steps_fold, hfn] at hfold
    | some v =>
      cases hc : pyCall v input with
      | error e => simp [steps_fold, hfn, hc] at hfold
      | ok r =>
        have hfold2 : steps_fold pre (pyStr r) = some cur := by
          simpa [steps_fold, hfn, hc] using hfold
        have hrec := ih bad is_chain total (i + 1) (pyStr r) cur hfold2 hbad
        simp only [List.cons_append, run_steps, hfn, hc, List.append_eq]
        simpa using hrec

/-- C2 as the code has it: execution stops at the first failing step — the
result is a failure naming that step, nothing is written to any sink, and
the trace is the start marker followed by exactly the step loop's entries
for the steps up to and including the failure (the run over
`pre ++ [bad]`), none after. The positions rendered into the trace are
one-based for a null callable, and a raised exception's entry names the
step without any position (see the counterexample). -/
theorem C2_stops_at_first_failure (dry_run : Bool) (pre : List Step) (bad : Step)
    (post : List Step) (input source cur : String)
    (hfold : steps_fold pre input = some cur) (hbad : StepFails bad cur) :
    (run_chain dry_run (pre ++ bad :: post) input source).write = none ∧
    ((run_chain dry_run (pre ++ bad :: post) input source).result =
        .stepUnavailable bad.name ∨
      ∃ m, (run_chain dry_run (pre ++ bad :: post) input source).result =
        .stepRaised bad.name m) ∧
    (run_chain dry_run (pre ++ bad :: post) input source).trace =
      front_event (pre ++ bad :: post) source ::
        (run_steps (decide (1 < (pre ++ bad :: post).length))
          (pre ++ bad :: post).length 0 (pre ++ [bad]) input).2 := by
  obtain ⟨s0, rest, hL⟩ : ∃ s0 rest, pre ++ bad :: post = s0 :: rest := by
    cases h : pre ++ bad :: post with
    | nil => exact absurd h (by simp)
    | cons a b => exact ⟨a, b, rfl⟩
  have hsteps := run_steps_stops pre bad post (decide (1 < (s0 :: rest).length))
    (s0 :: rest).length 0 input cur hfold hbad
  have hkind := run_steps_fail_kind pre bad (decide (1 < (s0 :: rest).length))
    (s0 :: rest).length 0 input cur hfold hbad
  rw [hL]
  rw [hL] at hsteps
  rcases hrs : run_steps (decide (1 < (s0 :: rest).length)) (s0 :: rest).length 0
      (pre ++ [bad]) input with ⟨res, tr⟩
  rw [hrs] at hsteps hkind
  simp only at hkind
  simp only [run_chain, hsteps, hrs]
  rcases hkind with hk | ⟨m, hk⟩ <;> subst hk
  · exact ⟨rfl, Or.inl rfl, rfl⟩
  · exact ⟨rfl, Or.inr ⟨m, rfl⟩, rfl⟩

def pre_w : List Step := [⟨"a", some (.vfunc excl_fun)⟩]

def bad_w : Step := ⟨"b", none⟩

def post_w : List Step := [⟨"c", some (.vfunc excl_fun)⟩]

theorem C2_witness :
    (run_chain false (pre_w ++ bad_w :: post_w) "t" "hotkey").write = none ∧
    ((run_chain false (pre_w ++ bad_w :: post_w) "t" "hotkey").result =
        .stepUnavailable "b" ∨
      ∃ m, (run_chain false (pre_w ++ bad_w :: post_w) "t" "hotkey").result =
        .stepRaised "b" m) ∧
    (run_chain false (pre_w ++ bad_w :: post_w) "t" "hotkey").trace =
      front_event (pre_w ++ bad_w :: post_w) "hotkey" ::
        (run_steps (decide (1 < (pre_w ++ bad_w :: post_w).length))
          (pre_w ++ bad_w :: post_w).length 0 (pre_w ++ [bad_w]) "t").2 :=
  C2_stops_at_first_failure false pre_w bad_w post_w "t" "hotkey" "t!" rfl (Or.inl rfl)
